import Mathlib

/-!
Shallow embedding of the chatfx packet-chat core.

Source files embedded here:
  src/src/chatfx/definitions.py  (MessageType, CompressionType, MsgId, InfoByte, Message)
  src/src/chatfx/chat.py         (Chat.rx_frame, Chat.send, Chat.tx_complete, Chat.process)

Python strings are modelled as lists of Unicode code points (`List Nat`);
byte strings as lists of byte values (`List Nat`, each < 256).  Python
exceptions are modelled with `Option` results (`none` = the corresponding
exception is raised), and where a method lets an exception escape, the
surrounding model records which exception propagated.
-/

namespace Chatfx

/-- Python exceptions that can escape the chat methods. -/
inductive PyErr
  | indexError
  | valueError
  | overflowError
  | unicodeDecodeError
deriving DecidableEq, Repr

/-- MessageType enumeration from definitions.py: MSG = 0, ACK = 1. -/
inductive MessageType
  | MSG
  | ACK
deriving DecidableEq, Repr

/-- Wire ordinal of a MessageType (the Enum value). -/
def MessageType.val : MessageType → Nat
  | .MSG => 0
  | .ACK => 1

/-- Inverse of `MessageType.val`: `MessageType(n)` in Python, `none` models the
ValueError raised when `n` is not a defined enum value. -/
def MessageType.ofOrd : Nat → Option MessageType
  | 0 => some .MSG
  | 1 => some .ACK
  | _ => none

/-- CompressionType enumeration from definitions.py: NONE = 0, SMAZ = 1. -/
inductive CompressionType
  | NONE
  | SMAZ
deriving DecidableEq, Repr

/-- Wire ordinal of a CompressionType (the Enum value). -/
def CompressionType.val : CompressionType → Nat
  | .NONE => 0
  | .SMAZ => 1

/-- Inverse of `CompressionType.val`: `CompressionType(n)` in Python, `none`
models the ValueError raised when `n` is not a defined enum value. -/
def CompressionType.ofOrd : Nat → Option CompressionType
  | 0 => some .NONE
  | 1 => some .SMAZ
  | _ => none

/-- MsgId dataclass: a message id carried as a Python int (possibly negative,
since Python ints are signed). -/
structure MsgId where
  id : Int
deriving DecidableEq, Repr

/-- Constructor of `MsgId` including `__post_init__`: raises ValueError
(`none`) when `id > 65535`; no other check is performed. -/
def mkMsgId (i : Int) : Option MsgId :=
  if 65535 < i then none else some ⟨i⟩

/-- Python `int.from_bytes(bs)` with default big-endian order: fold over the
bytes most-significant first (the empty byte string gives 0). -/
def bytesToNat (bs : List Nat) : Nat :=
  bs.foldl (fun a b => a * 256 + b) 0

/-- MsgId.to_bytes: `self.id.to_bytes(2)`, big-endian.  Python raises
OverflowError (`none`) when the int is negative or does not fit 2 bytes. -/
def MsgId.to_bytes (m : MsgId) : Option (List Nat) :=
  if 0 ≤ m.id ∧ m.id < 65536 then
    some [m.id.toNat / 256, m.id.toNat % 256]
  else
    none

/-- MsgId.from_bytes: `MsgId(int.from_bytes(bytes_array))`; the constructor
validation applies (it cannot fire for inputs of at most two bytes). -/
def MsgId.from_bytes (bs : List Nat) : Option MsgId :=
  mkMsgId (bytesToNat bs : Nat)

/-- InfoByte dataclass: the 1-byte control header. -/
structure InfoByte where
  message_type : MessageType
  compression_type : CompressionType
deriving DecidableEq, Repr

/-- InfoByte.to_byte: the Python code concatenates the two 2-bit strings of
the ordinals and left-justifies to 8 bits with zeros, so the byte value is
`message ordinal * 64 + compression ordinal * 16` with the low 4 bits zero. -/
def InfoByte.to_byte (ib : InfoByte) : Nat :=
  ib.message_type.val * 64 + ib.compression_type.val * 16

/-- Bit `i` of `n` (bit 0 least significant). -/
def bit (n i : Nat) : Nat :=
  n / 2 ^ i % 2

/-- InfoByte.from_int: renders the byte as an 8-character bit string and reads
`bits[0:2]` and `bits[2:4]` back with Python `int`, i.e. as DECIMAL numerals
(so the two-character slice "10" reads as ten and "11" as eleven — both are
rejected by the enum constructors just like genuine ordinals 2 and 3 would
be).  `integer.to_bytes(1)` raises OverflowError (`none`) above 255. -/
def InfoByte.from_int (n : Nat) : Option InfoByte :=
  if 255 < n then none
  else
    let mtOrd := 10 * bit n 7 + bit n 6
    let ctOrd := 10 * bit n 5 + bit n 4
    match MessageType.ofOrd mtOrd, CompressionType.ofOrd ctOrd with
    | some mt, some ct => some ⟨mt, ct⟩
    | _, _ => none

/-- UTF-8 encoding of one code point, as performed by Python `str.encode()`.
Code points below 128 take one byte; the multi-byte forms follow RFC 3629. -/
def utf8EncodeChar (c : Nat) : List Nat :=
  if c < 128 then [c]
  else if c < 2048 then [192 + c / 64, 128 + c % 64]
  else if c < 65536 then [224 + c / 4096, 128 + c / 64 % 64, 128 + c % 64]
  else [240 + c / 262144, 128 + c / 4096 % 64, 128 + c / 64 % 64, 128 + c % 64]

/-- UTF-8 encoding of a string of code points (`str.encode()`). -/
def utf8Encode : List Nat → List Nat
  | [] => []
  | c :: rest => utf8EncodeChar c ++ utf8Encode rest

/-- Whether a byte is a UTF-8 continuation byte (10xxxxxx). -/
def isCont (b : Nat) : Bool :=
  128 ≤ b && b < 192

/-- Validity of the first continuation byte of a 3-byte sequence (rules out
overlong forms after lead byte 224 and surrogates after lead byte 237). -/
def contOk3 (b b2 : Nat) : Bool :=
  if b = 224 then 160 ≤ b2 && b2 < 192
  else if b = 237 then 128 ≤ b2 && b2 < 160
  else isCont b2

/-- Validity of the first continuation byte of a 4-byte sequence (rules out
overlong forms after lead byte 240 and values beyond U+10FFFF after 244). -/
def contOk4 (b b2 : Nat) : Bool :=
  if b = 240 then 144 ≤ b2 && b2 < 192
  else if b = 244 then 128 ≤ b2 && b2 < 144
  else isCont b2

/-- Code point of a 2-byte UTF-8 sequence. -/
def cp2 (b b2 : Nat) : Nat := (b - 192) * 64 + (b2 - 128)

/-- Code point of a 3-byte UTF-8 sequence. -/
def cp3 (b b2 b3 : Nat) : Nat :=
  (b - 224) * 4096 + (b2 - 128) * 64 + (b3 - 128)

/-- Code point of a 4-byte UTF-8 sequence. -/
def cp4 (b b2 b3 b4 : Nat) : Nat :=
  (b - 240) * 262144 + (b2 - 128) * 4096 + (b3 - 128) * 64 + (b4 - 128)

/-- Fuel-indexed strict UTF-8 decoder; the fuel only has to cover the byte
count, each step consumes at least one byte. -/
def utf8DecodeAux : Nat → List Nat → Option (List Nat)
  | _, [] => some []
  | 0, _ :: _ => none
  | fuel + 1, b :: rest =>
    if b < 128 then (utf8DecodeAux fuel rest).map (b :: ·)
    else if b < 194 then none
    else if b < 224 then
      match rest with
      | b2 :: rest2 =>
        if isCont b2 then (utf8DecodeAux fuel rest2).map (cp2 b b2 :: ·)
        else none
      | [] => none
    else if b < 240 then
      match rest with
      | b2 :: b3 :: rest3 =>
        if contOk3 b b2 && isCont b3 then
          (utf8DecodeAux fuel rest3).map (cp3 b b2 b3 :: ·)
        else none
      | _ => none
    else if b < 245 then
      match rest with
      | b2 :: b3 :: b4 :: rest4 =>
        if contOk4 b b2 && isCont b3 && isCont b4 then
          (utf8DecodeAux fuel rest4).map (cp4 b b2 b3 b4 :: ·)
        else none
      | _ => none
    else none

/-- Strict UTF-8 decoding (`bytes.decode()`): `none` models the
UnicodeDecodeError raised for malformed input (stray continuation bytes,
overlong forms, surrogates, values beyond U+10FFFF). -/
def utf8Decode (bs : List Nat) : Option (List Nat) :=
  utf8DecodeAux bs.length bs

/-- Modelled from the spec: the `smaz` package used for the DICTIONARY
compression backend is an external dependency whose source is not part of
this repository.  Following section 4.3 it is modelled as a deterministic
dictionary-substitution compressor for short natural-language text: a fixed
codebook of common fragments, with an escape code for verbatim bytes.  This
table holds the codebook entries as byte lists (the classic smaz codebook
starts " ", "the", "e", "t", "a", "of", ...; a representative set ordered
longest-match-first is used here). -/
def smazTable : List (List Nat) :=
  [ [116, 104, 101, 32]       -- "the "
  , [111, 102, 32]            -- "of "
  , [116, 104, 101]           -- "the"
  , [97, 110, 100]            -- "and"
  , [116, 104, 97, 116]       -- "that"
  , [104, 97, 118, 101]       -- "have"
  , [102, 111, 114]           -- "for"
  , [110, 111, 116]           -- "not"
  , [119, 105, 116, 104]      -- "with"
  , [121, 111, 117]           -- "you"
  , [116, 104, 105, 115]      -- "this"
  , [111, 102]                -- "of"
  , [116, 111]                -- "to"
  , [105, 110]                -- "in"
  , [105, 115]                -- "is"
  , [111, 110]                -- "on"
  , [105, 116]                -- "it"
  , [101, 114]                -- "er"
  , [97, 110]                 -- "an"
  , [114, 101]                -- "re"
  , [32]                      -- " "
  , [101]                     -- "e"
  , [116]                     -- "t"
  , [97]                      -- "a"
  , [111]                     -- "o"
  , [105]                     -- "i"
  , [110]                     -- "n"
  , [115]                     -- "s"
  , [104]                     -- "h"
  , [114]                     -- "r"
  ]

/-- Escape code introducing one verbatim byte in the compressed stream. -/
def smazEsc : Nat := 254

/-- Whether `w` is an initial run of `s`. -/
def headMatches : List Nat → List Nat → Bool
  | [], _ => true
  | _ :: _, [] => false
  | a :: asr, b :: bs => a = b && headMatches asr bs

/-- First codebook entry (by table position) that is a nonempty initial run
of `s`, together with its code. -/
def findCode (t : List (List Nat)) (s : List Nat) : Option (Nat × List Nat) :=
  match t with
  | [] => none
  | w :: ws =>
    if w ≠ [] && headMatches w s then some (0, w)
    else (findCode ws s).map fun p => (p.1 + 1, p.2)

/-- Greedy dictionary compression (fuel-indexed; `smazCompress` supplies
enough fuel for the whole input).  Dictionary hits emit their code; any
other byte is emitted verbatim behind the escape code. -/
def smazCompressAux : Nat → List Nat → List Nat
  | 0, _ => []
  | _, [] => []
  | fuel + 1, b :: rest =>
    match findCode smazTable (b :: rest) with
    | some (i, w) => i :: smazCompressAux fuel ((b :: rest).drop w.length)
    | none => smazEsc :: b :: smazCompressAux fuel rest

/-- Modelled from the spec: `smaz.compress` (section 4.3 DICTIONARY
backend). -/
def smazCompress (s : List Nat) : List Nat :=
  smazCompressAux s.length s

/-- Modelled from the spec: `smaz.decompress` — codes map back to their
codebook entries, the escape code passes the following byte through. -/
def smazDecompress : List Nat → List Nat
  | [] => []
  | c :: rest =>
    if c = smazEsc then
      match rest with
      | b :: rest2 => b :: smazDecompress rest2
      | [] => []
    else
      (smazTable.getD c []) ++ smazDecompress rest

/-- Message dataclass: a text string with a chosen compression type
(default NONE). -/
structure Message where
  string : List Nat
  compress : CompressionType := .NONE
deriving DecidableEq, Repr

/-- Message.to_bytes: SMAZ compresses, NONE takes the UTF-8 encoding. -/
def Message.to_bytes (m : Message) : List Nat :=
  match m.compress with
  | .SMAZ => smazCompress m.string
  | .NONE => utf8Encode m.string

/-- Message.from_bytes: SMAZ decompresses, NONE performs a strict UTF-8
decode (`none` models the UnicodeDecodeError for malformed bytes).  The
resulting Message carries the default compression type. -/
def Message.from_bytes (bs : List Nat) (ct : CompressionType) : Option Message :=
  match ct with
  | .SMAZ => some ⟨smazDecompress bs, .NONE⟩
  | .NONE => (utf8Decode bs).map fun s => ⟨s, .NONE⟩

/-- Configuration fields read by the chat core (`Config` in definitions.py;
the display and logging fields, which the core only prints, are omitted). -/
structure Config where
  callsign : List Nat
  time_delay : Rat
deriving DecidableEq, Repr

/-- Pending-acknowledgment entry: the tuple
`(ts, counter, source, dest, message)` stored in `Chat.pending_ack`. -/
structure PendingEntry where
  ts : List Nat
  counter : Int
  source : List Nat
  dest : List Nat
  message : List Nat
deriving DecidableEq, Repr

/-- Raw AX.25 frame as built and consumed by chat.py (destination, source,
control byte, payload bytes). -/
structure AX25RawFrame where
  destination : List Nat
  source : List Nat
  control : Nat
  payload : List Nat
deriving DecidableEq, Repr

/-- Mutable state of a `Chat` object (the fields touched by rx_frame, send,
tx_complete and process).  Timestamps are microseconds since an arbitrary
epoch. -/
structure ChatState where
  busy : Bool
  config : Config
  counter : Int
  exit : Bool
  last_comm : Nat
  out_queue : List AX25RawFrame
  pending_ack : List (Int × PendingEntry)
deriving DecidableEq, Repr

/-- Fresh `Chat.__init__` state at time `now`. -/
def initChat (cfg : Config) (now : Nat) : ChatState :=
  { busy := false
    config := cfg
    counter := 0
    exit := false
    last_comm := now
    out_queue := []
    pending_ack := [] }

/-- Lookup in the pending-ack dict (`self.pending_ack[id]`). -/
def lookupAck : List (Int × PendingEntry) → Int → Option PendingEntry
  | [], _ => none
  | (k, e) :: rest, i => if k = i then some e else lookupAck rest i

/-- Insertion into the pending-ack dict (`self.pending_ack[id] = entry`):
overwrites in place when the key exists, appends otherwise, matching the
insertion-order semantics of a Python dict. -/
def insertAck : List (Int × PendingEntry) → Int → PendingEntry →
    List (Int × PendingEntry)
  | [], i, e => [(i, e)]
  | (k, e0) :: rest, i, e =>
    if k = i then (i, e) :: rest else (k, e0) :: insertAck rest i e

/-- Whether a code point is Python whitespace for `str.strip()`. -/
def isWs (b : Nat) : Bool :=
  b = 32 || b = 9 || b = 10 || b = 13 || b = 11 || b = 12

/-- Python `s.strip()`: drop leading and trailing whitespace. -/
def stripWs (s : List Nat) : List Nat :=
  ((s.dropWhile isWs).reverse.dropWhile isWs).reverse

/-- The source callsign extracted in rx_frame:
`str(frame.header.source).strip().replace("*", "")`. -/
def stripSource (s : List Nat) : List Nat :=
  (stripWs s).filter (· ≠ 42)

/-- Observable output of the chat core (log lines and rendered chat lines),
with each event carrying the data the corresponding call formats. -/
inductive Event
  | debugRxFrame
  | infoReceived (source text : List Nat)
  | linePrint (ts : List Nat) (indicator : Nat) (source dest text : List Nat)
  | errorUnknownAck (id : Int)
  | infoSending (dest text : List Nat)
  | infoSentAx25 (dest text : List Nat)
  | errorInvalidFormat
  | hintFormat
  | debugTxComplete
deriving DecidableEq, Repr

/-- Indicator character "S" of a sent line. -/
def indS : Nat := 83

/-- Indicator character "R" of a received line. -/
def indR : Nat := 82

/-- Indicator character "A" of an acknowledged line. -/
def indA : Nat := 65

/-- Result of running the receive callback: the state after the call, the
output events it emitted, and the exception (if any) that escaped it. -/
structure RxResult where
  state : ChatState
  events : List Event
  err : Option PyErr
deriving DecidableEq, Repr

/-- Dispatch tail of Chat.rx_frame (chat.py lines 137-163), taken after the
envelope has parsed to `info_byte`, `msg_id` and `r_message` and the source
callsign has been cleaned: log the received line, then on MSG render it and
enqueue the answering ACK frame (a ValueError or OverflowError from
rebuilding the id would escape), and on ACK consult the tracker — render
the resolved line when the entry exists, report the unknown id when it does
not.  `s` is the state with `last_comm` already updated. -/
def rxDispatch (s : ChatState) (ts source : List Nat)
    (info_byte : InfoByte) (msg_id : MsgId) (r_message : Message) :
    RxResult :=
  let evs := [Event.debugRxFrame, Event.infoReceived source r_message.string]
  if info_byte.message_type = MessageType.MSG then
    let evs := evs ++
      [Event.linePrint ts indR source s.config.callsign r_message.string]
    match mkMsgId msg_id.id with
    | none => ⟨s, evs, some .valueError⟩
    | some mid =>
    match mid.to_bytes with
    | none => ⟨s, evs, some .overflowError⟩
    | some idBytes =>
    let ackPayload :=
      InfoByte.to_byte ⟨.ACK, .SMAZ⟩ :: idBytes
        ++ Message.to_bytes { string := [] }
    let raw : AX25RawFrame :=
      ⟨source, s.config.callsign, 0, ackPayload⟩
    ⟨{ s with out_queue := s.out_queue ++ [raw] }, evs, none⟩
  else
    match lookupAck s.pending_ack msg_id.id with
    | none => ⟨s, evs ++ [Event.errorUnknownAck msg_id.id], none⟩
    | some e =>
      ⟨s, evs ++ [Event.linePrint e.ts indA e.source e.dest e.message], none⟩

/-- Chat.rx_frame.  `now` is the `datetime.now()` instant recorded into
`last_comm` and `ts` the formatted clock string used for rendering.  The
body follows chat.py lines 121-163: update `last_comm`, log a debug line,
parse info byte, id and payload, then hand over to `rxDispatch`.  There is
no exception handling around the parse: a failing sub-codec lets the
exception escape the callback (recorded in `err`). -/
def rx_frame (s : ChatState) (now : Nat) (ts : List Nat)
    (frame : AX25RawFrame) : RxResult :=
  let s := { s with last_comm := now }
  let evs := [Event.debugRxFrame]
  match frame.payload.head? with
  | none => ⟨s, evs, some .indexError⟩
  | some b0 =>
  match InfoByte.from_int b0 with
  | none => ⟨s, evs, some .valueError⟩
  | some info_byte =>
  match MsgId.from_bytes ((frame.payload.drop 1).take 2) with
  | none => ⟨s, evs, some .valueError⟩
  | some msg_id =>
  match Message.from_bytes (frame.payload.drop 3) info_byte.compression_type with
  | none => ⟨s, evs, some .unicodeDecodeError⟩
  | some r_message =>
    rxDispatch s ts (stripSource frame.source) info_byte msg_id r_message

/-- Python `line.split(" ", 1)` destructured into two parts: `none` models
the ValueError raised by the unpacking when the line holds no space. -/
def splitOnce : List Nat → Option (List Nat × List Nat)
  | [] => none
  | b :: rest =>
    if b = 32 then some ([], rest)
    else (splitOnce rest).map fun p => (b :: p.1, p.2)

/-- The "/quit" command line. -/
def strQuit : List Nat := [47, 113, 117, 105, 116]

/-- The "/clear" command line. -/
def strClear : List Nat := [47, 99, 108, 101, 97, 114]

/-- One iteration of the `Chat.send` input loop on the line `line`, with
`ts` the formatted clock string (chat.py lines 175-216): handle the
commands, split destination from message (a missing separator is reported
and the loop continues), then build the MSG payload, enqueue the frame,
record the pending-ack entry and bump the counter.  A ValueError from
`MsgId(self.counter)` escapes the loop (recorded in the third component). -/
def sendLine (s : ChatState) (ts : List Nat) (line : List Nat) :
    ChatState × List Event × Option PyErr :=
  if line = strQuit then ({ s with exit := true }, [], none)
  else if line = strClear then (s, [], none)
  else
    match splitOnce line with
    | none => (s, [Event.errorInvalidFormat, Event.hintFormat], none)
    | some (dest, message) =>
      let evs := [Event.infoSending dest message]
      match mkMsgId s.counter with
      | none => (s, evs, some .valueError)
      | some mid =>
      match mid.to_bytes with
      | none => (s, evs, some .overflowError)
      | some idBytes =>
        let payload :=
          InfoByte.to_byte ⟨.MSG, .SMAZ⟩ :: idBytes
            ++ Message.to_bytes { string := message, compress := .SMAZ }
        let raw : AX25RawFrame := ⟨dest, s.config.callsign, 0, payload⟩
        let entry : PendingEntry :=
          ⟨ts, s.counter, s.config.callsign, dest, message⟩
        ({ s with
            out_queue := s.out_queue ++ [raw]
            pending_ack := insertAck s.pending_ack s.counter entry
            counter := s.counter + 1 },
         evs ++ [Event.infoSentAx25 dest message,
                 Event.linePrint ts indS s.config.callsign dest message],
         none)

/-- Chat.tx_complete: the transmit-completion callback records the channel
activity and clears the busy flag. -/
def tx_complete (s : ChatState) (now : Nat) : ChatState × List Event :=
  ({ s with last_comm := now, busy := false }, [Event.debugTxComplete])

/-- Python `(now - last).seconds` for timestamps in microseconds: the whole
seconds of the difference, modulo a day (the `seconds` component of a
timedelta excludes full days). -/
def elapsedSeconds (last now : Nat) : Nat :=
  (now - last) / 1000000 % 86400

/-- Outcome of one iteration of the `Chat.process` poll loop. -/
inductive ProcResult
  | exited (s : ChatState)
  | slept (s : ChatState)
  | transmitted (s : ChatState) (frame : AX25RawFrame)
deriving DecidableEq, Repr

/-- One iteration of the `Chat.process` poll loop at instant `now`
(chat.py lines 243-256): stop on exit; sleep when the queue is empty, the
busy flag is set, or fewer than `time_delay` whole seconds have passed
since `last_comm`; otherwise pop the head frame and hand it to the link
adapter.  Note that the code does not set `busy` when it transmits. -/
def processStep (s : ChatState) (now : Nat) : ProcResult :=
  if s.exit then .exited s
  else if s.out_queue.length = 0 then .slept s
  else if s.busy then .slept s
  else if (elapsedSeconds s.last_comm now : Rat) < s.config.time_delay then
    .slept s
  else
    match s.out_queue with
    | [] => .slept s
    | f :: rest => .transmitted { s with out_queue := rest } f

/-- Keys of the pending-ack dict in insertion order. -/
def ackKeys (l : List (Int × PendingEntry)) : List Int :=
  l.map Prod.fst

/-- Iterating the send loop: process `k` input lines in sequence (each
iteration continues from the state the previous one produced). -/
def sendIter (ts line : List Nat) : Nat → ChatState → ChatState
  | 0, s => s
  | k + 1, s => sendIter ts line k (sendLine s ts line).1

/-! ## Helper lemmas -/

/-- Header decode inverts header encode on the defined variants. -/
theorem from_int_to_byte (mt : MessageType) (ct : CompressionType) :
    InfoByte.from_int (InfoByte.to_byte ⟨mt, ct⟩) = some ⟨mt, ct⟩ := by
  cases mt <;> cases ct <;> decide

/-- Decoding the two big-endian bytes of an in-range id restores the id. -/
theorem msgId_from_two_bytes (id : Nat) (h : id < 65536) :
    MsgId.from_bytes [id / 256, id % 256] = some ⟨(id : Int)⟩ := by
  unfold MsgId.from_bytes bytesToNat mkMsgId
  have hv : (0 * 256 + id / 256) * 256 + id % 256 = id := by omega
  simp only [List.foldl, hv]
  rw [if_neg (by exact_mod_cast by omega : ¬(65535 : Int) < (id : Nat))]

/-- Encoding a string of ASCII code points takes one byte per character. -/
theorem utf8Encode_ascii_length :
    ∀ s : List Nat, (∀ b ∈ s, b < 128) →
      (utf8Encode s).length = s.length := by
  intro s
  induction s with
  | nil => intro _; rfl
  | cons c rest ih =>
    intro h
    have hc : c < 128 := h c (List.mem_cons_self c rest)
    have hrest : ∀ b ∈ rest, b < 128 := fun b hb => h b (List.mem_cons_of_mem c hb)
    simp [utf8Encode, utf8EncodeChar, if_pos hc, ih hrest]

/-- The fuel-indexed decoder inverts encoding on ASCII strings. -/
theorem utf8DecodeAux_ascii :
    ∀ (fuel : Nat) (s : List Nat), (∀ b ∈ s, b < 128) → s.length ≤ fuel →
      utf8DecodeAux fuel (utf8Encode s) = some s := by
  intro fuel
  induction fuel with
  | zero =>
    intro s _ hl
    have : s = [] := List.eq_nil_of_length_eq_zero (Nat.le_zero.mp hl)
    subst this; rfl
  | succ n ih =>
    intro s h hl
    cases s with
    | nil => rfl
    | cons c rest =>
      have hc : c < 128 := h c (List.mem_cons_self c rest)
      have hrest : ∀ b ∈ rest, b < 128 :=
        fun b hb => h b (List.mem_cons_of_mem c hb)
      have hln : rest.length ≤ n := by
        simpa [List.length_cons, Nat.succ_le_succ_iff] using hl
      simp only [utf8Encode, utf8EncodeChar, if_pos hc, List.cons_append,
        List.nil_append]
      simp only [utf8DecodeAux, if_pos hc, ih rest hrest hln, Option.map]

/-- UTF-8 round-trips on strings of ASCII code points. -/
theorem utf8_ascii_roundtrip (s : List Nat) (h : ∀ b ∈ s, b < 128) :
    utf8Decode (utf8Encode s) = some s := by
  unfold utf8Decode
  exact utf8DecodeAux_ascii (utf8Encode s).length s h
    (by rw [utf8Encode_ascii_length s h])

/-- Soundness of a positive `headMatches` answer: the haystack starts with
the needle. -/
theorem headMatches_eq_append :
    ∀ w s : List Nat, headMatches w s = true → s = w ++ s.drop w.length := by
  intro w
  induction w with
  | nil => intro s _; simp
  | cons a asr ih =>
    intro s h
    cases s with
    | nil => simp [headMatches] at h
    | cons b bs =>
      simp only [headMatches, Bool.and_eq_true, decide_eq_true_eq] at h
      obtain ⟨rfl, h2⟩ := h
      simpa [List.length_cons] using congrArg (a :: ·) (ih bs h2)

/-- Soundness of `findCode`: a returned code names a nonempty codebook entry
that starts the input. -/
theorem findCode_spec :
    ∀ (t : List (List Nat)) (s : List Nat) (i : Nat) (w : List Nat),
      findCode t s = some (i, w) →
      t.get? i = some w ∧ w ≠ [] ∧ headMatches w s = true := by
  intro t
  induction t with
  | nil => intro s i w h; simp [findCode] at h
  | cons hd tl ih =>
    intro s i w h
    unfold findCode at h
    by_cases hc : (hd ≠ [] && headMatches hd s) = true
    · rw [if_pos hc] at h
      obtain ⟨rfl, rfl⟩ : i = 0 ∧ hd = w := by
        constructor <;> (injection h with h; cases h; rfl)
      simp only [Bool.and_eq_true, decide_eq_true_eq] at hc
      exact ⟨rfl, hc.1, hc.2⟩
    · rw [if_neg hc] at h
      cases hfind : findCode tl s with
      | none => rw [hfind] at h; simp at h
      | some p =>
        rw [hfind] at h
        obtain ⟨i0, w0⟩ := p
        have h' : (i0 + 1, w0) = (i, w) := by
          have hx := h
          simp only [Option.map] at hx
          exact Option.some.inj hx
        obtain ⟨h1, h2⟩ := Prod.mk.inj h'
        subst h1
        subst h2
        obtain ⟨hg, hne, hm⟩ := ih s i0 w0 hfind
        exact ⟨by simpa using hg, hne, hm⟩

/-- Size of the modelled codebook. -/
theorem smazTable_length : smazTable.length = 30 := by decide

/-- Evaluation of decompression at an escape code. -/
theorem smazDecompress_esc (b : Nat) (cs : List Nat) :
    smazDecompress (smazEsc :: b :: cs) = b :: smazDecompress cs := by
  conv_lhs => rw [smazDecompress.eq_def]
  simp

/-- Evaluation of decompression at a codebook code. -/
theorem smazDecompress_code (i : Nat) (hne : i ≠ smazEsc) (cs : List Nat) :
    smazDecompress (i :: cs) = smazTable.getD i [] ++ smazDecompress cs := by
  conv_lhs => rw [smazDecompress.eq_def]
  simp [if_neg hne]

/-- Dictionary decompression inverts fuel-indexed compression when the fuel
covers the input length. -/
theorem smazAux_roundtrip :
    ∀ (fuel : Nat) (s : List Nat), s.length ≤ fuel →
      smazDecompress (smazCompressAux fuel s) = s := by
  intro fuel
  induction fuel with
  | zero =>
    intro s h
    have : s = [] := List.eq_nil_of_length_eq_zero (Nat.le_zero.mp h)
    subst this; rfl
  | succ n ih =>
    intro s h
    cases s with
    | nil => rfl
    | cons b rest =>
      unfold smazCompressAux
      cases hf : findCode smazTable (b :: rest) with
      | none =>
        have hlen : rest.length ≤ n := by
          simpa [List.length_cons, Nat.succ_le_succ_iff] using h
        rw [smazDecompress_esc, ih rest hlen]
      | some p =>
        obtain ⟨i, w⟩ := p
        obtain ⟨hg, hne, hm⟩ := findCode_spec smazTable (b :: rest) i w hf
        have hilt : i < smazTable.length := List.get?_eq_some.mp hg |>.1
        have hne254 : i ≠ smazEsc := by
          rw [smazTable_length] at hilt
          unfold smazEsc
          omega
        have hwpos : 0 < w.length := List.length_pos.mpr hne
        have hwle : w.length ≤ (b :: rest).length := by
          have := headMatches_eq_append w (b :: rest) hm
          calc w.length ≤ w.length + ((b :: rest).drop w.length).length := by omega
            _ = (b :: rest).length := by
                rw [← List.length_append, ← this]
        have hlen2 : ((b :: rest).drop w.length).length ≤ n := by
          simp only [List.length_drop]
          simp only [List.length_cons] at hwle h ⊢
          omega
        rw [smazDecompress_code i hne254, ih _ hlen2]
        have hget : smazTable.getD i [] = w := by
          simp only [List.getD]
          rw [hg]
          rfl
        rw [hget, ← headMatches_eq_append w (b :: rest) hm]

/-- Dictionary decompression inverts compression. -/
theorem smaz_roundtrip (s : List Nat) :
    smazDecompress (smazCompress s) = s :=
  smazAux_roundtrip s.length s (Nat.le_refl _)

/-- Evaluation of the receive callback on an ACK envelope
`header ‖ idHi ‖ idLo ‖ tail` whose tail decodes: the tracker is consulted
and, entry or not, the tracker itself is left as it was. -/
theorem rx_ack_eval (s : ChatState) (now : Nat) (ts dst src t : List Nat)
    (ct : CompressionType) (id : Nat) (hid : id < 65536)
    (m : Message) (hdec : Message.from_bytes t ct = some m) :
    rx_frame s now ts
      ⟨dst, src, 0, InfoByte.to_byte ⟨.ACK, ct⟩ :: id / 256 :: id % 256 :: t⟩ =
      match lookupAck s.pending_ack (id : Int) with
      | none =>
        ⟨{ s with last_comm := now },
         [.debugRxFrame, .infoReceived (stripSource src) m.string,
          .errorUnknownAck (id : Int)], none⟩
      | some e =>
        ⟨{ s with last_comm := now },
         [.debugRxFrame, .infoReceived (stripSource src) m.string,
          .linePrint e.ts indA e.source e.dest e.message], none⟩ := by
  cases hl : lookupAck s.pending_ack (id : Int) with
  | none =>
    simp [rx_frame, rxDispatch, from_int_to_byte, msgId_from_two_bytes id hid,
      hdec, hl]
  | some e =>
    simp [rx_frame, rxDispatch, from_int_to_byte, msgId_from_two_bytes id hid,
      hdec, hl]

/-- Lookup misses every key strictly below the probe. -/
theorem lookupAck_none_of_lt (l : List (Int × PendingEntry)) (i : Int)
    (h : ∀ k ∈ ackKeys l, k < i) : lookupAck l i = none := by
  induction l with
  | nil => rfl
  | cons p rest ih =>
    obtain ⟨k, e⟩ := p
    have hk : k < i := h k (by simp [ackKeys])
    simp only [lookupAck, if_neg (by omega : ¬k = i)]
    exact ih fun k0 hk0 => h k0 (by simp [ackKeys] at hk0 ⊢; tauto)

/-- Inserting a fresh key appends the binding. -/
theorem insertAck_fresh (l : List (Int × PendingEntry)) (i : Int)
    (e : PendingEntry) (h : lookupAck l i = none) :
    insertAck l i e = l ++ [(i, e)] := by
  induction l with
  | nil => rfl
  | cons p rest ih =>
    obtain ⟨k, e0⟩ := p
    by_cases hk : k = i
    · subst hk
      simp [lookupAck] at h
    · simp only [lookupAck, if_neg hk] at h
      simp [insertAck, if_neg hk, ih h]

/-- Evaluation of a successful send: the state one valid input line
produces. -/
theorem sendLine_success (s : ChatState) (ts line dest message : List Nat)
    (hq : line ≠ strQuit) (hc : line ≠ strClear)
    (hs : splitOnce line = some (dest, message))
    (hcnt : s.counter ≤ 65535) (h0 : 0 ≤ s.counter) :
    sendLine s ts line =
      ({ s with
          out_queue := s.out_queue ++
            [⟨dest, s.config.callsign, 0,
              InfoByte.to_byte ⟨.MSG, .SMAZ⟩ ::
                s.counter.toNat / 256 :: s.counter.toNat % 256 ::
                smazCompress message⟩]
          pending_ack := insertAck s.pending_ack s.counter
            ⟨ts, s.counter, s.config.callsign, dest, message⟩
          counter := s.counter + 1 },
       [.infoSending dest message, .infoSentAx25 dest message,
        .linePrint ts indS s.config.callsign dest message],
       none) := by
  unfold sendLine
  rw [if_neg hq, if_neg hc, hs]
  simp only [mkMsgId, if_neg (by omega : ¬(65535 : Int) < s.counter)]
  simp only [MsgId.to_bytes, if_pos (⟨h0, by omega⟩ : 0 ≤ s.counter ∧ s.counter < 65536)]
  simp [Message.to_bytes]

/-- Evaluation of an overflowing send: once the counter has passed the id
range, `MsgId(self.counter)` raises before anything is enqueued. -/
theorem sendLine_overflow (s : ChatState) (ts line dest message : List Nat)
    (hq : line ≠ strQuit) (hc : line ≠ strClear)
    (hs : splitOnce line = some (dest, message))
    (hcnt : 65535 < s.counter) :
    sendLine s ts line = (s, [.infoSending dest message], some .valueError) := by
  unfold sendLine
  rw [if_neg hq, if_neg hc, hs]
  simp only [mkMsgId, if_pos hcnt]

/-- Invariant of the iterated send loop: starting from a state whose tracker
keys all lie below the counter, `k` sends bump the counter by `k` and append
exactly the keys `counter, counter+1, ...` in order. -/
theorem sendIter_spec (ts line dest message : List Nat)
    (hq : line ≠ strQuit) (hc : line ≠ strClear)
    (hs : splitOnce line = some (dest, message)) :
    ∀ (k : Nat) (s : ChatState),
      (∀ i ∈ ackKeys s.pending_ack, i < s.counter) →
      0 ≤ s.counter →
      s.counter + k ≤ 65536 →
      (sendIter ts line k s).counter = s.counter + k ∧
      ackKeys (sendIter ts line k s).pending_ack =
        ackKeys s.pending_ack ++
          (List.range k).map (fun n : Nat => s.counter + (n : Int)) := by
  intro k
  induction k with
  | zero => intro s _ _ _; simp [sendIter]
  | succ k ih =>
    intro s hkeys h0 hk
    have hk1 : ((k + 1 : Nat) : Int) = (k : Int) + 1 := by push_cast; ring
    rw [hk1] at hk
    have hcnt : s.counter ≤ 65535 := by omega
    have hle := sendLine_success s ts line dest message hq hc hs hcnt h0
    have hfresh : lookupAck s.pending_ack s.counter = none :=
      lookupAck_none_of_lt _ _ hkeys
    rw [show sendIter ts line (k + 1) s =
          sendIter ts line k (sendLine s ts line).1 from rfl]
    rw [hle]
    set e : PendingEntry :=
      ⟨ts, s.counter, s.config.callsign, dest, message⟩ with he
    set fr : AX25RawFrame :=
      ⟨dest, s.config.callsign, 0,
        InfoByte.to_byte ⟨.MSG, .SMAZ⟩ ::
          s.counter.toNat / 256 :: s.counter.toNat % 256 ::
          smazCompress message⟩ with hf
    have hkeys2 : ackKeys (insertAck s.pending_ack s.counter e) =
        ackKeys s.pending_ack ++ [s.counter] := by
      rw [insertAck_fresh _ _ _ hfresh]
      simp [ackKeys]
    obtain ⟨ih1, ih2⟩ := ih
      { s with
          out_queue := s.out_queue ++ [fr]
          pending_ack := insertAck s.pending_ack s.counter e
          counter := s.counter + 1 }
      (by
        intro i hi
        show i < s.counter + 1
        have hi' : i ∈ ackKeys (insertAck s.pending_ack s.counter e) := hi
        rw [hkeys2] at hi'
        simp only [List.mem_append, List.mem_singleton] at hi'
        rcases hi' with hi' | hi'
        · have := hkeys i hi'; omega
        · omega)
      (by show (0 : Int) ≤ s.counter + 1; omega)
      (by show s.counter + 1 + (k : Int) ≤ 65536; omega)
    constructor
    · rw [ih1]
      show s.counter + 1 + (k : Int) = s.counter + ((k + 1 : Nat) : Int)
      rw [hk1]
      ring
    · rw [ih2]
      show ackKeys (insertAck s.pending_ack s.counter e) ++
          (List.range k).map (fun n : Nat => s.counter + 1 + (n : Int)) =
        ackKeys s.pending_ack ++
          (List.range (k + 1)).map (fun n : Nat => s.counter + (n : Int))
      rw [hkeys2, List.append_assoc]
      congr 1
      rw [List.range_succ_eq_map]
      rw [List.map_cons, List.map_map, List.singleton_append]
      congr 1
      · simp
      · apply List.map_congr_left
        intro n _
        simp only [Function.comp_apply]
        push_cast
        ring

/-! ## Claims -/

/-- C4, counterexample: the claim says construction fails for every integer
outside `[0, 65535]`, but `MsgId(-1)` constructs successfully — the
`__post_init__` check only rejects values above 65535, so a negative id is
observable as a valid object (its encoding is what fails). -/
theorem C4_counterexample :
    mkMsgId (-1) = some ⟨-1⟩ ∧ MsgId.to_bytes ⟨-1⟩ = none := by
  constructor <;> decide

/-- C4, amended: construction fails exactly for integers above 65535; every
id in `[0, 65535]` constructs and round-trips through its exactly-2-byte
big-endian encoding; negative ids pass construction and are rejected only
when encoded. -/
theorem C4_msgid_range (i : Int) :
    (mkMsgId i = none ↔ 65535 < i) ∧
    (0 ≤ i → i ≤ 65535 →
      ∃ bs, MsgId.to_bytes ⟨i⟩ = some bs ∧ bs.length = 2 ∧
        MsgId.from_bytes bs = some ⟨i⟩) ∧
    (i < 0 → MsgId.to_bytes ⟨i⟩ = none) := by
  refine ⟨?_, ?_, ?_⟩
  · unfold mkMsgId
    split <;> simp_all
  · intro h0 h1
    refine ⟨[i.toNat / 256, i.toNat % 256], ?_, rfl, ?_⟩
    · unfold MsgId.to_bytes
      rw [if_pos (show (0 : Int) ≤ i ∧ i < 65536 from ⟨h0, by omega⟩)]
    · have := msgId_from_two_bytes i.toNat (by omega)
      rwa [Int.toNat_of_nonneg h0] at this
  · intro h
    unfold MsgId.to_bytes
    rw [if_neg (show ¬((0 : Int) ≤ i ∧ i < 65536) from by omega)]

/-- C4, witness: id 1 constructs and round-trips through two bytes, and the
negative id -1 is rejected at encode time. -/
theorem C4_msgid_range_witness :
    (∃ bs, MsgId.to_bytes ⟨1⟩ = some bs ∧ bs.length = 2 ∧
      MsgId.from_bytes bs = some ⟨1⟩) ∧
    MsgId.to_bytes ⟨-1⟩ = none :=
  ⟨(C4_msgid_range 1).2.1 (by decide) (by decide),
   (C4_msgid_range (-1)).2.2 (by decide)⟩

/-- C6: for all 4 combinations of the 2 MessageType and the 2
CompressionType variants, header decode inverts header encode, and the
encoded byte keeps its 4 reserved (low) bits zero. -/
theorem C6_header_codec_roundtrip (mt : MessageType) (ct : CompressionType) :
    InfoByte.from_int (InfoByte.to_byte ⟨mt, ct⟩) = some ⟨mt, ct⟩ ∧
    InfoByte.to_byte ⟨mt, ct⟩ % 16 = 0 := by
  cases mt <;> cases ct <;> exact ⟨by decide, by decide⟩

set_option maxRecDepth 8192 in
/-- C7: every header byte whose message-kind field or compression-kind
field carries the reserved ordinal 2 or 3 is rejected by header decode;
such ordinals are never mapped to a defined variant. -/
theorem C7_reserved_ordinals_rejected :
    ∀ n : Nat, n < 256 →
      (2 ≤ 2 * bit n 7 + bit n 6 ∨ 2 ≤ 2 * bit n 5 + bit n 4) →
      InfoByte.from_int n = none := by
  decide

/-- C7, witness: byte 128 carries message-kind ordinal 2 and is rejected. -/
theorem C7_reserved_ordinals_rejected_witness :
    InfoByte.from_int 128 = none :=
  C7_reserved_ordinals_rejected 128 (by decide) (Or.inl (by decide))

/-- C8: for every ASCII string, including the empty string, the payload
codec round-trips exactly under both compression kinds. -/
theorem C8_payload_roundtrip (ct : CompressionType) (s : List Nat)
    (h : ∀ b ∈ s, b < 128) :
    Message.from_bytes (Message.to_bytes ⟨s, ct⟩) ct = some ⟨s, .NONE⟩ := by
  cases ct
  · simp [Message.to_bytes, Message.from_bytes, utf8_ascii_roundtrip s h]
  · simp [Message.to_bytes, Message.from_bytes, smaz_roundtrip]

/-- C8, witness: the ASCII string "Hi" round-trips under SMAZ compression. -/
theorem C8_payload_roundtrip_witness :
    Message.from_bytes (Message.to_bytes ⟨[72, 105], .SMAZ⟩) .SMAZ =
      some ⟨[72, 105], .NONE⟩ :=
  C8_payload_roundtrip .SMAZ [72, 105] (by decide)

/-- C1, counterexample: the claim says an ACK removes the pending entry and
that a second ACK with the same id reports "unknown".  On a tracker holding
an entry for id 5, processing the ACK envelope `[64, 0, 5]` twice renders
the acknowledged line BOTH times (the second run's events hold the
indicator-A line print, not the unknown-id error) and the entry is still
present afterwards: the lookup never removes it. -/
theorem C1_counterexample :
    (rx_frame
        (rx_frame
          { initChat ⟨[65], 2⟩ 0 with
              pending_ack := [(5, ⟨[116, 115], 5, [65], [66], [104, 105]⟩)] }
          10 [116] ⟨[65], [66], 0, [64, 0, 5]⟩).state
        20 [116] ⟨[65], [66], 0, [64, 0, 5]⟩).events =
      [.debugRxFrame, .infoReceived [66] [],
       .linePrint [116, 115] indA [65] [66] [104, 105]] ∧
    lookupAck
      (rx_frame
        (rx_frame
          { initChat ⟨[65], 2⟩ 0 with
              pending_ack := [(5, ⟨[116, 115], 5, [65], [66], [104, 105]⟩)] }
          10 [116] ⟨[65], [66], 0, [64, 0, 5]⟩).state
        20 [116] ⟨[65], [66], 0, [64, 0, 5]⟩).state.pending_ack 5 =
      some ⟨[116, 115], 5, [65], [66], [104, 105]⟩ := by
  constructor <;> decide

/-- C1, amended: processing a received ACK with id N looks the pending
entry up WITHOUT removing it and renders the acknowledged line; resolution
is therefore not once-only — a second ACK with the same id finds the entry
again and renders it again, and the "unknown" report is produced only for
ids that have no pending entry. -/
theorem C1_ack_lookup_not_removed (s : ChatState) (now now2 : Nat)
    (ts ts2 dst src t : List Nat) (ct : CompressionType)
    (m : Message) (hdec : Message.from_bytes t ct = some m)
    (id : Nat) (hid : id < 65536)
    (e : PendingEntry) (hl : lookupAck s.pending_ack (id : Int) = some e) :
    (rx_frame s now ts
        ⟨dst, src, 0,
          InfoByte.to_byte ⟨.ACK, ct⟩ :: id / 256 :: id % 256 :: t⟩).state.pending_ack
      = s.pending_ack ∧
    Event.linePrint e.ts indA e.source e.dest e.message ∈
      (rx_frame s now ts
        ⟨dst, src, 0,
          InfoByte.to_byte ⟨.ACK, ct⟩ :: id / 256 :: id % 256 :: t⟩).events ∧
    Event.errorUnknownAck (id : Int) ∉
      (rx_frame s now ts
        ⟨dst, src, 0,
          InfoByte.to_byte ⟨.ACK, ct⟩ :: id / 256 :: id % 256 :: t⟩).events ∧
    Event.linePrint e.ts indA e.source e.dest e.message ∈
      (rx_frame
        (rx_frame s now ts
          ⟨dst, src, 0,
            InfoByte.to_byte ⟨.ACK, ct⟩ :: id / 256 :: id % 256 :: t⟩).state
        now2 ts2
        ⟨dst, src, 0,
          InfoByte.to_byte ⟨.ACK, ct⟩ :: id / 256 :: id % 256 :: t⟩).events ∧
    Event.errorUnknownAck (id : Int) ∉
      (rx_frame
        (rx_frame s now ts
          ⟨dst, src, 0,
            InfoByte.to_byte ⟨.ACK, ct⟩ :: id / 256 :: id % 256 :: t⟩).state
        now2 ts2
        ⟨dst, src, 0,
          InfoByte.to_byte ⟨.ACK, ct⟩ :: id / 256 :: id % 256 :: t⟩).events := by
  have h1 := rx_ack_eval s now ts dst src t ct id hid m hdec
  rw [hl] at h1
  simp only [] at h1
  have h2 := rx_ack_eval { s with last_comm := now } now2 ts2 dst src t ct id
    hid m hdec
  have hl2 : lookupAck ({ s with last_comm := now } : ChatState).pending_ack
      (id : Int) = some e := hl
  rw [hl2] at h2
  simp only [] at h2
  rw [h1]
  simp only []
  rw [h2]
  simp

/-- C3, counterexample: the claim says a frame whose payload holds fewer
than 3 bytes fails with a Truncated error and is never dispatched.  The
1-byte payload `[0]` parses fine (header MSG/NONE, missing id bytes read
as 0, empty text), no error escapes, the line is rendered as a received
MSG, and an ACK frame is enqueued in response: the truncated frame IS
dispatched as a MSG. -/
theorem C3_counterexample :
    (rx_frame (initChat ⟨[65], 2⟩ 0) 10 [116] ⟨[65], [66], 0, [0]⟩).err =
        none ∧
    (rx_frame (initChat ⟨[65], 2⟩ 0) 10 [116] ⟨[65], [66], 0, [0]⟩).events =
      [.debugRxFrame, .infoReceived [66] [],
       .linePrint [116] indR [66] [65] []] ∧
    (rx_frame (initChat ⟨[65], 2⟩ 0) 10 [116]
        ⟨[65], [66], 0, [0]⟩).state.out_queue =
      [⟨[66], [65], 0, [80, 0, 0]⟩] := by
  refine ⟨?_, ?_, ?_⟩ <;> decide

/-- C3, amended: no Truncated check exists.  A frame with an EMPTY payload
raises an uncaught IndexError inside the receive callback (nothing is
enqueued); a frame with a 1- or 2-byte payload is parsed leniently — the
missing id bytes are read as the big-endian value of the bytes present
(zero when absent) and the text is empty — raises nothing, and is
dispatched normally as its message kind: a MSG-kind short frame is
rendered as received and answered with an enqueued ACK for the read id,
while an ACK-kind short frame is matched against the tracker under the
read id (resolved or reported unknown). -/
theorem C3_short_frames_dispatched (s : ChatState) (now : Nat)
    (ts dst src : List Nat) (ct : CompressionType)
    (b2 : Nat) (hb2 : b2 < 256) :
    rx_frame s now ts ⟨dst, src, 0, []⟩ =
      ⟨{ s with last_comm := now }, [.debugRxFrame], some .indexError⟩ ∧
    rx_frame s now ts ⟨dst, src, 0, [InfoByte.to_byte ⟨.MSG, ct⟩]⟩ =
      ⟨{ s with
          last_comm := now,
          out_queue := s.out_queue ++
            [⟨stripSource src, s.config.callsign, 0, [80, 0, 0]⟩] },
       [.debugRxFrame, .infoReceived (stripSource src) [],
        .linePrint ts indR (stripSource src) s.config.callsign []], none⟩ ∧
    rx_frame s now ts ⟨dst, src, 0, [InfoByte.to_byte ⟨.MSG, ct⟩, b2]⟩ =
      ⟨{ s with
          last_comm := now,
          out_queue := s.out_queue ++
            [⟨stripSource src, s.config.callsign, 0, [80, 0, b2]⟩] },
       [.debugRxFrame, .infoReceived (stripSource src) [],
        .linePrint ts indR (stripSource src) s.config.callsign []], none⟩ ∧
    rx_frame s now ts ⟨dst, src, 0, [InfoByte.to_byte ⟨.ACK, ct⟩]⟩ =
      (match lookupAck s.pending_ack 0 with
       | none =>
         ⟨{ s with last_comm := now },
          [.debugRxFrame, .infoReceived (stripSource src) [],
           .errorUnknownAck 0], none⟩
       | some e =>
         ⟨{ s with last_comm := now },
          [.debugRxFrame, .infoReceived (stripSource src) [],
           .linePrint e.ts indA e.source e.dest e.message], none⟩) ∧
    rx_frame s now ts ⟨dst, src, 0, [InfoByte.to_byte ⟨.ACK, ct⟩, b2]⟩ =
      (match lookupAck s.pending_ack (b2 : Int) with
       | none =>
         ⟨{ s with last_comm := now },
          [.debugRxFrame, .infoReceived (stripSource src) [],
           .errorUnknownAck (b2 : Int)], none⟩
       | some e =>
         ⟨{ s with last_comm := now },
          [.debugRxFrame, .infoReceived (stripSource src) [],
           .linePrint e.ts indA e.source e.dest e.message], none⟩) := by
  have hm0 : MsgId.from_bytes ([] : List Nat) = some ⟨0⟩ := by decide
  have hm2 : MsgId.from_bytes [b2] = some ⟨(b2 : Int)⟩ := by
    unfold MsgId.from_bytes bytesToNat mkMsgId
    simp only [List.foldl, Nat.zero_mul, Nat.zero_add]
    rw [if_neg (show ¬(65535 : Int) < ((b2 : Nat) : Int) from by omega)]
  have hdec : Message.from_bytes ([] : List Nat) ct = some ⟨[], .NONE⟩ := by
    cases ct <;> rfl
  have hmk0 : mkMsgId 0 = some ⟨0⟩ := by decide
  have hmk2 : mkMsgId (b2 : Int) = some ⟨(b2 : Int)⟩ := by
    unfold mkMsgId
    rw [if_neg (show ¬(65535 : Int) < ((b2 : Nat) : Int) from by omega)]
  have hto0 : MsgId.to_bytes ⟨0⟩ = some [0, 0] := by decide
  have hto2 : MsgId.to_bytes ⟨(b2 : Int)⟩ = some [0, b2] := by
    unfold MsgId.to_bytes
    rw [if_pos
      (show (0 : Int) ≤ ((b2 : Nat) : Int) ∧ ((b2 : Nat) : Int) < 65536 from
        ⟨by omega, by omega⟩)]
    have h1 : ((b2 : Nat) : Int).toNat = b2 := by omega
    rw [h1, Nat.div_eq_of_lt hb2, Nat.mod_eq_of_lt hb2]
  have h80 : InfoByte.to_byte ⟨.ACK, .SMAZ⟩ = 80 := by decide
  have hMSG := from_int_to_byte .MSG ct
  have hACK := from_int_to_byte .ACK ct
  have hp1M : rx_frame s now ts ⟨dst, src, 0, [InfoByte.to_byte ⟨.MSG, ct⟩]⟩ =
      rxDispatch { s with last_comm := now } ts (stripSource src)
        ⟨.MSG, ct⟩ ⟨0⟩ ⟨[], .NONE⟩ := by
    simp [rx_frame, hMSG, hm0, hdec]
  have hp2M : rx_frame s now ts
        ⟨dst, src, 0, [InfoByte.to_byte ⟨.MSG, ct⟩, b2]⟩ =
      rxDispatch { s with last_comm := now } ts (stripSource src)
        ⟨.MSG, ct⟩ ⟨(b2 : Int)⟩ ⟨[], .NONE⟩ := by
    simp [rx_frame, hMSG, hm2, hdec]
  have hp1A : rx_frame s now ts ⟨dst, src, 0, [InfoByte.to_byte ⟨.ACK, ct⟩]⟩ =
      rxDispatch { s with last_comm := now } ts (stripSource src)
        ⟨.ACK, ct⟩ ⟨0⟩ ⟨[], .NONE⟩ := by
    simp [rx_frame, hACK, hm0, hdec]
  have hp2A : rx_frame s now ts
        ⟨dst, src, 0, [InfoByte.to_byte ⟨.ACK, ct⟩, b2]⟩ =
      rxDispatch { s with last_comm := now } ts (stripSource src)
        ⟨.ACK, ct⟩ ⟨(b2 : Int)⟩ ⟨[], .NONE⟩ := by
    simp [rx_frame, hACK, hm2, hdec]
  refine ⟨rfl, ?_, ?_, ?_, ?_⟩
  · rw [hp1M]
    unfold rxDispatch
    rw [if_pos (show (⟨.MSG, ct⟩ : InfoByte).message_type = MessageType.MSG
      from rfl)]
    rw [show ((⟨(0 : Int)⟩ : MsgId)).id = (0 : Int) from rfl, hmk0]
    split
    next heq => exact absurd heq (by simp)
    next mid heq =>
      rw [Option.some.inj heq] at hto0
      split
      next heq2 => rw [hto0] at heq2; exact absurd heq2 (by simp)
      next idBytes heq2 =>
        rw [hto0] at heq2
        rw [Option.some.inj heq2, h80]
        simp [Message.to_bytes, utf8Encode]
  · rw [hp2M]
    unfold rxDispatch
    rw [if_pos (show (⟨.MSG, ct⟩ : InfoByte).message_type = MessageType.MSG
      from rfl)]
    rw [show ((⟨(b2 : Int)⟩ : MsgId)).id = (b2 : Int) from rfl, hmk2]
    split
    next heq => exact absurd heq (by simp)
    next mid heq =>
      rw [Option.some.inj heq] at hto2
      split
      next heq2 => rw [hto2] at heq2; exact absurd heq2 (by simp)
      next idBytes heq2 =>
        rw [hto2] at heq2
        rw [Option.some.inj heq2, h80]
        simp [Message.to_bytes, utf8Encode]
  · rw [hp1A]
    unfold rxDispatch
    rw [if_neg (show ¬(⟨.ACK, ct⟩ : InfoByte).message_type = MessageType.MSG
      from by simp)]
    rw [show ((⟨(0 : Int)⟩ : MsgId)).id = (0 : Int) from rfl]
    cases hl : lookupAck s.pending_ack (0 : Int) with
    | none => simp
    | some e => simp
  · rw [hp2A]
    unfold rxDispatch
    rw [if_neg (show ¬(⟨.ACK, ct⟩ : InfoByte).message_type = MessageType.MSG
      from by simp)]
    rw [show ((⟨(b2 : Int)⟩ : MsgId)).id = (b2 : Int) from rfl]
    cases hl : lookupAck s.pending_ack (b2 : Int) with
    | none => simp [hl]
    | some e => simp [hl]

/-- C3, witness: with second byte 7, a 2-byte MSG-kind payload is
dispatched as a received MSG answered by an ACK for id 7, and a 2-byte
ACK-kind payload on a fresh (empty) tracker reports id 7 unknown. -/
theorem C3_short_frames_dispatched_witness :
    rx_frame (initChat ⟨[65], 2⟩ 0) 10 [116]
        ⟨[67], [66], 0, [InfoByte.to_byte ⟨.MSG, .NONE⟩, 7]⟩ =
      ⟨{ busy := false, config := ⟨[65], 2⟩, counter := 0, exit := false,
          last_comm := 10, out_queue := [⟨[66], [65], 0, [80, 0, 7]⟩],
          pending_ack := [] },
       [.debugRxFrame, .infoReceived [66] [],
        .linePrint [116] indR [66] [65] []], none⟩ ∧
    rx_frame (initChat ⟨[65], 2⟩ 0) 10 [116]
        ⟨[67], [66], 0, [InfoByte.to_byte ⟨.ACK, .NONE⟩, 7]⟩ =
      ⟨{ busy := false, config := ⟨[65], 2⟩, counter := 0, exit := false,
          last_comm := 10, out_queue := [], pending_ack := [] },
       [.debugRxFrame, .infoReceived [66] [],
        .errorUnknownAck 7], none⟩ :=
  let h := C3_short_frames_dispatched (initChat ⟨[65], 2⟩ 0) 10 [116]
    [67] [66] .NONE 7 (by decide)
  ⟨h.2.2.1, h.2.2.2.2⟩

/-- C5: a received ACK whose id has no pending entry is reported as an
unknown acknowledgment, no exception escapes (the session continues), and
the tracker — along with the outbound queue, the counter and the exit
flag — is left unchanged. -/
theorem C5_unknown_ack_leaves_tracker (s : ChatState) (now : Nat)
    (ts dst src t : List Nat) (ct : CompressionType)
    (m : Message) (hdec : Message.from_bytes t ct = some m)
    (id : Nat) (hid : id < 65536)
    (hl : lookupAck s.pending_ack (id : Int) = none) :
    (rx_frame s now ts
        ⟨dst, src, 0,
          InfoByte.to_byte ⟨.ACK, ct⟩ :: id / 256 :: id % 256 :: t⟩).state.pending_ack
      = s.pending_ack ∧
    (rx_frame s now ts
        ⟨dst, src, 0,
          InfoByte.to_byte ⟨.ACK, ct⟩ :: id / 256 :: id % 256 :: t⟩).state.out_queue
      = s.out_queue ∧
    (rx_frame s now ts
        ⟨dst, src, 0,
          InfoByte.to_byte ⟨.ACK, ct⟩ :: id / 256 :: id % 256 :: t⟩).state.counter
      = s.counter ∧
    (rx_frame s now ts
        ⟨dst, src, 0,
          InfoByte.to_byte ⟨.ACK, ct⟩ :: id / 256 :: id % 256 :: t⟩).state.exit
      = s.exit ∧
    Event.errorUnknownAck (id : Int) ∈
      (rx_frame s now ts
        ⟨dst, src, 0,
          InfoByte.to_byte ⟨.ACK, ct⟩ :: id / 256 :: id % 256 :: t⟩).events ∧
    (rx_frame s now ts
        ⟨dst, src, 0,
          InfoByte.to_byte ⟨.ACK, ct⟩ :: id / 256 :: id % 256 :: t⟩).err =
      none := by
  have h1 := rx_ack_eval s now ts dst src t ct id hid m hdec
  rw [hl] at h1
  simp only [] at h1
  rw [h1]
  simp

/-- C1, witness: on a tracker holding entry 5, the first ACK leaves the
tracker unchanged and the second ACK still renders the acknowledged line. -/
theorem C1_ack_lookup_not_removed_witness :
    (rx_frame
        { initChat ⟨[65], 2⟩ 0 with
            pending_ack := [(5, ⟨[116, 115], 5, [65], [66], [104, 105]⟩)] }
        10 [116]
        ⟨[67], [66], 0,
          InfoByte.to_byte ⟨.ACK, .NONE⟩ :: 5 / 256 :: 5 % 256 ::
            []⟩).state.pending_ack
      = [(5, ⟨[116, 115], 5, [65], [66], [104, 105]⟩)] ∧
    Event.linePrint [116, 115] indA [65] [66] [104, 105] ∈
      (rx_frame
        (rx_frame
          { initChat ⟨[65], 2⟩ 0 with
              pending_ack := [(5, ⟨[116, 115], 5, [65], [66], [104, 105]⟩)] }
          10 [116]
          ⟨[67], [66], 0,
            InfoByte.to_byte ⟨.ACK, .NONE⟩ :: 5 / 256 :: 5 % 256 :: []⟩).state
        20 [117]
        ⟨[67], [66], 0,
          InfoByte.to_byte ⟨.ACK, .NONE⟩ :: 5 / 256 :: 5 % 256 :: []⟩).events :=
  let h := C1_ack_lookup_not_removed
    { initChat ⟨[65], 2⟩ 0 with
        pending_ack := [(5, ⟨[116, 115], 5, [65], [66], [104, 105]⟩)] }
    10 20 [116] [117] [67] [66] [] .NONE ⟨[], .NONE⟩ (by decide)
    5 (by decide) ⟨[116, 115], 5, [65], [66], [104, 105]⟩ (by decide)
  ⟨h.1, h.2.2.2.1⟩

/-- C5, witness: an ACK for the never-sent id 7 on a fresh tracker reports
the unknown id and leaves the (empty) tracker empty. -/
theorem C5_unknown_ack_leaves_tracker_witness :
    (rx_frame (initChat ⟨[65], 2⟩ 0) 10 [116]
        ⟨[67], [66], 0,
          InfoByte.to_byte ⟨.ACK, .NONE⟩ :: 7 / 256 :: 7 % 256 ::
            []⟩).state.pending_ack = [] ∧
    Event.errorUnknownAck 7 ∈
      (rx_frame (initChat ⟨[65], 2⟩ 0) 10 [116]
        ⟨[67], [66], 0,
          InfoByte.to_byte ⟨.ACK, .NONE⟩ :: 7 / 256 :: 7 % 256 ::
            []⟩).events :=
  let h := C5_unknown_ack_leaves_tracker (initChat ⟨[65], 2⟩ 0) 10 [116]
    [67] [66] [] .NONE ⟨[], .NONE⟩ (by decide) 7 (by decide) (by decide)
  ⟨h.1, h.2.2.2.2.1⟩

/-- C9, counterexample: the claim says an empty message is rejected with no
frame built.  The input line "BOB " (destination followed by the separator
and an empty message) IS sent: a frame with an empty text payload is
enqueued, a pending-ack entry for id 0 is created, and no error is
reported. -/
theorem C9_counterexample :
    (sendLine (initChat ⟨[65], 2⟩ 0) [116] [66, 79, 66, 32]).1.out_queue =
      [⟨[66, 79, 66], [65], 0, [16, 0, 0]⟩] ∧
    lookupAck
        (sendLine (initChat ⟨[65], 2⟩ 0) [116]
          [66, 79, 66, 32]).1.pending_ack 0 =
      some ⟨[116], 0, [65], [66, 79, 66], []⟩ ∧
    (sendLine (initChat ⟨[65], 2⟩ 0) [116] [66, 79, 66, 32]).2.2 = none := by
  refine ⟨?_, ?_, ?_⟩ <;> decide

/-- C9, amended: only a line with no destination/message separator (and
which is not one of the /quit and /clear commands) is rejected: the handler
reports the format error with a hint, builds and enqueues no frame, creates
no pending-ack entry, and the loop continues with the state untouched.  A
line with a separator but an empty message is not treated as an error — it
is enqueued as a normal, empty-text message. -/
theorem C9_missing_separator_rejected (s : ChatState) (ts line : List Nat)
    (hq : line ≠ strQuit) (hc : line ≠ strClear)
    (hs : splitOnce line = none) :
    sendLine s ts line = (s, [.errorInvalidFormat, .hintFormat], none) := by
  unfold sendLine
  rw [if_neg hq, if_neg hc, hs]

/-- C9, witness: the separator-free line "B" is rejected with the state
untouched. -/
theorem C9_missing_separator_rejected_witness :
    sendLine (initChat ⟨[65], 2⟩ 0) [116] [66] =
      (initChat ⟨[65], 2⟩ 0, [.errorInvalidFormat, .hintFormat], none) :=
  C9_missing_separator_rejected (initChat ⟨[65], 2⟩ 0) [116] [66]
    (by decide) (by decide) rfl

/-- C10: within a session the ids assigned to outgoing MSG frames are the
strictly increasing consecutive integers 0, 1, 2, ... — after `k`
successful sends the counter equals `k` and the pending-ack keys are
exactly `[0, ..., k-1]` in order — and once the counter has passed 65535
(after 65536 sends) the next send attempt fails with the ValueError raised
at MessageId construction, leaving the state unchanged, instead of
wrapping around to reuse an earlier id. -/
theorem C10_ids_strictly_increasing (cfg : Config) (t0 : Nat)
    (ts line dest message : List Nat)
    (hq : line ≠ strQuit) (hc : line ≠ strClear)
    (hs : splitOnce line = some (dest, message))
    (k : Nat) (hk : k ≤ 65536) :
    (sendIter ts line k (initChat cfg t0)).counter = (k : Int) ∧
    ackKeys (sendIter ts line k (initChat cfg t0)).pending_ack =
      (List.range k).map (fun n : Nat => (n : Int)) ∧
    (k = 65536 →
      sendLine (sendIter ts line k (initChat cfg t0)) ts line =
        (sendIter ts line k (initChat cfg t0),
         [.infoSending dest message], some .valueError)) := by
  obtain ⟨h1, h2⟩ := sendIter_spec ts line dest message hq hc hs k
    (initChat cfg t0)
    (by intro i hi; simp [ackKeys, initChat] at hi)
    (by simp [initChat])
    (by
      show (initChat cfg t0).counter + (k : Int) ≤ 65536
      simp only [initChat]
      omega)
  refine ⟨?_, ?_, ?_⟩
  · rw [h1]
    simp [initChat]
  · rw [h2]
    simp [ackKeys, initChat]
  · intro hk65536
    subst hk65536
    apply sendLine_overflow _ _ _ _ _ hq hc hs
    rw [h1]
    show (65535 : Int) < (initChat cfg t0).counter + ((65536 : Nat) : Int)
    simp only [initChat]
    omega

/-- C10, witness: two sends of the line "B x" from a fresh session use ids
0 and 1 and leave the counter at 2. -/
theorem C10_ids_strictly_increasing_witness :
    (sendIter [116] [66, 32, 120] 2 (initChat ⟨[65], 2⟩ 0)).counter = 2 ∧
    ackKeys (sendIter [116] [66, 32, 120] 2
        (initChat ⟨[65], 2⟩ 0)).pending_ack =
      (List.range 2).map (fun n : Nat => (n : Int)) :=
  let h := C10_ids_strictly_increasing ⟨[65], 2⟩ 0 [116] [66, 32, 120]
    [66] [120] (by decide) (by decide) (by decide) 2 (by decide)
  ⟨h.1, h.2.1⟩

/-- C2: the claim's gating mechanism does not exist as described — `busy`
is never set to true when a frame is handed to the adapter, and `last_comm`
is only updated by the completion and receive callbacks.  With two frames
queued back-to-back, `time_delay` of 2 seconds, and the last activity 10
seconds in the past, two consecutive poll iterations at the SAME instant
(no completion callback has run in between, `busy` still false) each hand a
frame to the link adapter: the observed gap is 0 seconds, below the
configured delay. -/
theorem C2_back_to_back_transmits :
    processStep
        { busy := false, config := ⟨[65], 2⟩, counter := 0, exit := false,
          last_comm := 0,
          out_queue := [⟨[66], [65], 0, [16, 0, 0]⟩,
                        ⟨[66], [65], 0, [16, 0, 1]⟩],
          pending_ack := [] } 10000000 =
      .transmitted
        { busy := false, config := ⟨[65], 2⟩, counter := 0, exit := false,
          last_comm := 0,
          out_queue := [⟨[66], [65], 0, [16, 0, 1]⟩],
          pending_ack := [] } ⟨[66], [65], 0, [16, 0, 0]⟩ ∧
    processStep
        { busy := false, config := ⟨[65], 2⟩, counter := 0, exit := false,
          last_comm := 0,
          out_queue := [⟨[66], [65], 0, [16, 0, 1]⟩],
          pending_ack := [] } 10000000 =
      .transmitted
        { busy := false, config := ⟨[65], 2⟩, counter := 0, exit := false,
          last_comm := 0, out_queue := [],
          pending_ack := [] } ⟨[66], [65], 0, [16, 0, 1]⟩ := by
  constructor <;> decide

end Chatfx
